import Mathlib

/-!
Shallow embedding of the ProceduralPollockWeb core: the RandFS.h pseudo-random
generator (MT19937-64) and hash library, and the GenerateShaderCode grammar
engine from Shader.cpp.  Machine integers are modelled as Nat (unsigned) or
Int (signed) with explicit reductions modulo 2^w where the C++ type would
truncate.  Strings are modelled as Lean String / List Char.
-/

set_option maxRecDepth 100000
set_option maxHeartbeats 1000000

namespace PPW

def functionDefinitions : String :=
  "\n\t\n\t// 1 input\n\t\n\tfn fInv(x: f32) -> f32\n\t\x7b\n\t\treturn 1.0f - x;\n\t\x7d\n\t\n\tfn fSqr(x: f32) -> f32\n\t\x7b\n\t\treturn x * x;\n\t\x7d\n\t\n\tfn fSqrt(x: f32) -> f32\n\t\x7b\n\t\treturn sqrt(x);\n\t\x7d\n\t\n\tfn fSmooth(x: f32) -> f32\n\t\x7b\n\t\tlet x2: f32 = x * x;\n\t\tlet x3: f32 = x2 * x;\n\t\treturn x2 + x2 + x2 - x3 - x3;\n\t\x7d\n\n\tfn fSharp(x: f32) -> f32\n\t\x7b\n\t\treturn x * (x * (x + x - 3.0f) + 2.0f);\n\t\x7d\n\t\n\t// -------------------------------------\n\t// 2 inputs\n\t\n\tfn fAdd(x: f32, y: f32) -> f32\n\t\x7b\n\t\tlet res: f32 = x + y;\n\t\tif (res > 1.0f)\n\t\t\x7b\n\t\t\treturn 2.0f - res;\n\t\t\x7d\n\t\treturn res;\n\t\x7d\n\t\n\tfn fSub(x: f32, y: f32) -> f32\n\t\x7b\n\t\tlet res: f32 = x - y;\n\t\tif (res < 0.0f)\n\t\t\x7b\n\t\t\treturn -res;\n\t\t\x7d\n\t\treturn res;\n\t\x7d\n\t\n\tfn fMul(x: f32, y: f32) -> f32\n\t\x7b\n\t\treturn x * y;\n\t\x7d\n\t\t\n\tfn fDiv(x: f32, y: f32) -> f32\n\t\x7b\n\t\tvar min: f32 = x;\n\t\tvar max: f32 = y;\n\t\t\n\t\tif (x > y)\n\t\t\x7b\n\t\t\tmin = y;\n\t\t\tmax = x;\n\t\t\x7d\n\t\tif (max < 0.0001f)\n\t\t\x7b\n\t\t\tmax = 0.0001f;\n\t\t\x7d\n\t\treturn min / max;\n\t\x7d\n\t\n\tfn fAvg(x: f32, y: f32) -> f32\n\t\x7b\n\t\treturn (x + y) * 0.5f;\n\t\x7d\n\t\n\tfn fGeom(x: f32, y: f32) -> f32\n\t\x7b\n\t\treturn sqrt(x * y);\n\t\x7d\n\t\n\tfn fHarm(x: f32, y: f32) -> f32\n\t\x7b\n\t\tvar den: f32 = x + y;\n\t\tif (den < 0.0001f)\n\t\t\x7b\n\t\t\tden = 0.0001f;\n\t\t\x7d\n\t\treturn (2.0f * x * y) / den;\n\t\x7d\n\n\tfn fHypo(x: f32, y: f32) -> f32\n\t\x7b\n\t\treturn 0.70710678f * sqrt(x * x + y * y); // Scale by 1 / sqrt(2)\n\t\x7d\t\n\n\tfn fMax(x: f32, y: f32) -> f32\n\t\x7b\n\t\treturn select(y, x, x > y);\n\t\x7d\n\t\n\tfn fMin(x: f32, y: f32) -> f32\n\t\x7b\n\t\treturn select(y, x, x < y);\n\t\x7d\n\t\n\tfn fPow(x: f32, y: f32) -> f32\n\t\x7b\n\t\tlet exp1: f32 = y + y - 1.0f;\n\t\tlet exp2: f32 = pow(10.0f, exp1);\n\t\treturn pow(x, exp2);\n\t\x7d\n\n\tfn fBell(x: f32, y: f32) -> f32\n\t\x7b\n\t\tlet y2: f32 = y * y;\n\t\treturn pow(4.0f * x * (1.0f - x), 20.0f * y2 * y2 + 0.3f);\n\t\x7d\n\t\n\tfn fWave(x: f32, y: f32) -> f32\n\t\x7b\n\t\tconst MAX_FREQUENCY: f32 = 6.0f * 3.1415927f;\n\t\treturn 0.5f + 0.5f * cos(MAX_FREQUENCY * x * y);\n\t\x7d\n\t\n\tfn fBounce(x: f32, y: f32) -> f32\n\t\x7b\n\t\tconst FREQUENCY_FACTOR: f32 = 3.0f * 3.1415927f;\n\t\treturn abs(cos(FREQUENCY_FACTOR * x * (y + 0.5f)) * exp2(-3.0f * x));\n\t\x7d\n\n\t// -------------------------------------\n\t// 3 inputs\n\t\n\tfn fLerp(x: f32, y: f32, z: f32) -> f32\n\t\x7b\n\t\treturn (1.0f - z) * x + z * y;\n\t\x7d\n\t\n\tfn fMlerp(x: f32, y: f32, z: f32) -> f32\n\t\x7b\n\t\tlet xMin = select(x, 0.0001f, x < 0.0001f);\n\t\treturn xMin * pow(y / xMin, z);\n\t\x7d\n\t\n\tfn fClamp(x: f32, y: f32, z: f32) -> f32\n\t\x7b\n\t\tvar min: f32 = x;\n\t\tvar max: f32 = y;\n\t\t\n\t\tif (x > y)\n\t\t\x7b\n\t\t\tmin = y;\n\t\t\tmax = x;\n\t\t\x7d\n\t\tif (z < min)\n\t\t\x7b\n\t\t\treturn min;\n\t\t\x7d\n\t\telse if (z > max)\n\t\t\x7b\n\t\t\treturn max;\n\t\t\x7d\n\t\treturn z;\n\t\x7d\n\t\n\t// -------------------------------------\n\t// 4 inputs\n\t\t\n\tfn fDist(x: f32, y: f32, z: f32, w: f32) -> f32\n\t\x7b\n\t\tlet dx: f32 = x - z;\n\t\tlet dy: f32 = y - w;\n\t\treturn 0.70710678f * sqrt(dx * dx + dy * dy); // Scale by 1 / sqrt(2)\n\t\x7d\n\t\n\tfn fDistLine(x: f32, y: f32, z: f32, w: f32) -> f32\n\t\x7b\n\t\tif (z < 0.499f)\n\t\t\x7b\n\t\t\tlet m: f32 = tan(z * 3.1415927f);\n\t\t\tlet n: f32 = (1.0f - w) * (1.0f + m) - m;\n\t\t\tlet c: f32 = (x + y * m - m * n) / (m * m + 1.0f);\n\t\t\tlet dx: f32 = c - x;\n\t\t\tlet dy: f32 = m * c + n - y;\n\t\t\treturn 0.70710678f * sqrt(dx * dx + dy * dy);\n\t\t\x7d\n\t\telse if (z > 0.501f)\n\t\t\x7b\n\t\t\tlet m: f32 = tan(z * 3.1415927f);\n\t\t\tlet n: f32 = w - m * w;\n\t\t\tlet c: f32 = (x + y * m - m * n) / (m * m + 1.0f);\n\t\t\tlet dx: f32 = c - x;\n\t\t\tlet dy: f32 = m * c + n - y;\n\t\t\treturn 0.70710678f * sqrt(dx * dx + dy * dy);\n\t\t\x7d\n\t\telse\n\t\t\x7b\n\t\t\treturn 0.70710678f * abs(w - x);\n\t\t\x7d\n\t\x7d\n\n\t// -------------------------------------\n\t// Masks\n\n\t// Implement lerp since WGSL doesn't have it natively\n\tfn lerp(a: vec3f, b: vec3f, t: vec3f) -> vec3f\n\t\x7b\n\t\treturn a + t * (b - a);\n\t\x7d\n\n\tfn fInv3(v: vec3f) -> vec3f\n\t\x7b\n\t\treturn vec3f(1.0f, 1.0f, 1.0f) - v;\n\t\x7d\n\n\tfn fAdd3(v: vec3f, x: f32) -> vec3f\n\t\x7b\n\t\tlet res: vec3f = v + vec3f(x, x, x);\n\t\treturn lerp(res, 2.0f - res, step(vec3f(1.0f, 1.0f, 1.0f), res));\n\t\x7d\n\t\n\tfn fSub3(v: vec3f, x: f32) -> vec3f\n\t\x7b\n\t\tlet res: vec3f = v - vec3f(x, x, x);\n\t\treturn lerp(-res, res, step(vec3f(0.0f, 0.0f, 0.0f), res));\n\t\x7d\n\t\n\t"

def mainFunction : String :=
  "\n\n\tstruct VertexOutput\n\t\x7b\n\t\t@builtin(position) Position : vec4f,\n\t\t@location(0) uv : vec2f\n\t\x7d;\n\n\t@vertex\n\tfn vertexMain(@builtin(vertex_index) i : u32) -> VertexOutput\n\t\x7b\n\t\t// Fullscreen quad\n\t\tconst positions = array\n\t\t(\n\t\t\tvec2f(-1.0f, 1.0f), vec2f(1.0f, 1.0f), vec2f(-1.0f, -1.0f),\n\t\t\tvec2f(-1.0f, -1.0f), vec2f(1.0f, 1.0f), vec2f(1.0f, -1.0f)\n\t\t);\n\n\t\t// UV coordinates\n\t\tconst uvs = array\n\t\t(\n\t\t\tvec2f(0.0f, 1.0f), vec2f(1.0f, 1.0f), vec2f(0.0f, 0.0f),\n\t\t\tvec2f(0.0f, 0.0f), vec2f(1.0f, 1.0f), vec2f(1.0f, 0.0f)\n\t\t);\n\t\t\n\t\t// Assemble output\n\t\tvar output: VertexOutput;\n\t\toutput.Position = vec4f(positions[i], 0.0f, 1.0f);\n\t\toutput.uv = uvs[i];\n\t\treturn output;\n\t\x7d\n\n\t@group(0) @binding(0) var<uniform> buf : vec4f;\n\n\t@fragment\n\tfn fragmentMain(input: VertexOutput) -> @location(0) vec4f\n\t\x7b\n\t\tlet invX = 1.0f - input.uv.x;\n\t\tlet invY = 1.0f - input.uv.y;\n\t\tlet sinTime = buf.x;\n\t\tlet cosTime = buf.y;\n\n\t\tlet rgb: vec3f = vec3f(&, &, &);\n\t\tlet rgbMasked = &MASK&;\n\n\t\treturn vec4f(rgbMasked, 1.0f);\n\t\x7d\n\n\t"

def values : List String :=
  ["input.uv.x",
   "input.uv.y",
   "invX",
   "invY",
   "sinTime",
   "cosTime",
   "#",
   "#"]

def functions : List String :=
  ["fInv(&)",
   "fSqr(&)",
   "fSqrt(&)",
   "fSmooth(&)",
   "fSharp(&)",
   "fAdd(&, &)",
   "fSub(&, &)",
   "fMul(&, &)",
   "fInv(fMul(&, &))",
   "fDiv(&, &)",
   "fAvg(&, &)",
   "fGeom(&, &)",
   "fHarm(&, &)",
   "fHypo(&, &)",
   "fInv(fHypo(&, &))",
   "fMax(&, &)",
   "fMin(&, &)",
   "fPow(&, &)",
   "fBell(&, &)",
   "fInv(fBell(&, &))",
   "fWave(&, &)",
   "fWave(&, &)",
   "fLerp(&, &, &)",
   "fMlerp(&, &, &)",
   "fDist(&, &, &, &)",
   "fDist(&, &, #, #)",
   "fDist(input.uv.x, input.uv.y, &, &)",
   "fDist(input.uv.x, input.uv.y, #, #)",
   "fInv(fDist(&, &, &, &))",
   "fInv(fDist(&, &, #, #))",
   "fInv(fDist(input.uv.x, input.uv.y, &, &))",
   "fInv(fDist(input.uv.x, input.uv.y, #, #))",
   "fDistLine(&, &, &, &)",
   "fDistLine(&, &, #, #)",
   "fDistLine(input.uv.x, input.uv.y, &, &)",
   "fDistLine(input.uv.x, input.uv.y, #, #)",
   "fInv(fDistLine(&, &, &, &))",
   "fInv(fDistLine(&, &, #, #))",
   "fInv(fDistLine(input.uv.x, input.uv.y, &, &))",
   "fInv(fDistLine(input.uv.x, input.uv.y, #, #))"]

def masks : List String :=
  ["rgb",
   "rgb",
   "rgb",
   "fAdd3(rgb, &)",
   "fSub3(rgb, &)",
   "fAdd3(fSub3(rgb, &), &)",
   "fSub3(fAdd3(rgb, &), &)",
   "fInv3(fAdd3(rgb, &))",
   "fInv3(fSub3(rgb, &))",
   "fInv3(fAdd3(fSub3(rgb, &), &))",
   "fInv3(fSub3(fAdd3(rgb, &), &))"]

/-- Reinterpretation of an unsigned value as a 32-bit signed integer
(the C++ conversions `int32_t(u)` and the `memcpy` bit reinterpretation). -/
def toInt32 (n : ℕ) : ℤ :=
  if n % 2 ^ 32 < 2 ^ 31 then ((n % 2 ^ 32 : ℕ) : ℤ) else ((n % 2 ^ 32 : ℕ) : ℤ) - 2 ^ 32

/-- The state of the `Random` class of RandFS.h: the MT19937-64 word table
`m_State` (312 words in any reachable state), the cursor `m_Index`, and the
one-word half cache `m_Cache` / `m_HasCache` used by `UInt32`. -/
structure Random where
  m_State : List ℕ
  m_Index : ℕ
  m_Cache : ℕ
  m_HasCache : Bool

/-- The seeding loop of the `Random` constructor:
`state[i] = 0x5851f42d4c957f2d * (state[i-1] ^ (state[i-1] >> 62)) + i`,
producing the words at indices `i, i+1, ...` from the previous word. -/
def initStateAux (prev i : ℕ) : ℕ → List ℕ
  | 0 => []
  | n + 1 =>
    let w := (0x5851f42d4c957f2d * (prev ^^^ (prev >>> 62)) + i) % 2 ^ 64
    w :: initStateAux w (i + 1) n

/-- `Random::Random(uint64_t seed)`: `m_State[0] = seed`, the loop fills
indices 1..311, `m_Index` ends at 312 (so the first draw twists), and the
32-bit cache starts empty. -/
def Random.init (seed : ℕ) : Random :=
  { m_State := seed % 2 ^ 64 :: initStateAux (seed % 2 ^ 64) 1 311
    m_Index := 312
    m_Cache := 0
    m_HasCache := false }

/-- Most significant 33 bits mask (`MS` in `Random::UInt64`). -/
def MS : ℕ := 0xffffffff80000000

/-- Least significant 31 bits mask (`LS` in `Random::UInt64`). -/
def LS : ℕ := 0x7fffffff

/-- One assignment of the twist in `Random::UInt64`:
`x = (state[i] & MS) | (state[succ] & LS); state[i] = state[src] ^ (x >> 1) ^ ((x & 1) * 0xb5026f5aa96619e9)`.
The updates are sequential and in place, so later steps see earlier writes. -/
def twistAt (st : List ℕ) (i succ src : ℕ) : List ℕ :=
  let x := (st.getD i 0 &&& MS) ||| (st.getD succ 0 &&& LS)
  st.set i (st.getD src 0 ^^^ (x >>> 1) ^^^ ((x &&& 1) * 0xb5026f5aa96619e9))

/-- The full table regeneration of `Random::UInt64`: indices 0..155 pull from
`i+156`, indices 156..310 pull from `i-156` (already rewritten words), and
index 311 wraps around to word 0 and pulls from word 155. -/
def twist (st : List ℕ) : List ℕ :=
  let st1 := (List.range 156).foldl (fun s i => twistAt s i (i + 1) (i + 156)) st
  let st2 := (List.range' 156 155).foldl (fun s i => twistAt s i (i + 1) (i - 156)) st1
  twistAt st2 311 0 155

/-- The tempering cascade at the end of `Random::UInt64`. -/
def temper (x : ℕ) : ℕ :=
  let x1 := x ^^^ ((x >>> 29) &&& 0x5555555555555555)
  let x2 := x1 ^^^ (((x1 <<< 17) % 2 ^ 64) &&& 0x71d67fffeda60000)
  let x3 := x2 ^^^ (((x2 <<< 37) % 2 ^ 64) &&& 0xfff7eee000000000)
  x3 ^^^ (x3 >>> 43)

/-- `Random::UInt64()`: twist when the cursor has exhausted the 312 words,
then take the word at the cursor, advance the cursor, and temper. -/
def Random.UInt64 (r : Random) : ℕ × Random :=
  if r.m_Index > 311 then
    let st := twist r.m_State
    (temper (st.getD 0 0), { r with m_State := st, m_Index := 1 })
  else
    (temper (r.m_State.getD r.m_Index 0), { r with m_Index := r.m_Index + 1 })

/-- `Random::UInt32()`: on a cache hit, consume and clear the cache without
touching the 64-bit generator; on a miss, draw one `UInt64`, return its low
32 bits (`uint32_t(x)`) and cache its high 32 bits (`uint32_t(x >> 32)`). -/
def Random.UInt32 (r : Random) : ℕ × Random :=
  if r.m_HasCache then (r.m_Cache, { r with m_HasCache := false })
  else
    let p := Random.UInt64 r
    (p.1 % 2 ^ 32, { p.2 with m_Cache := (p.1 >>> 32) % 2 ^ 32, m_HasCache := true })

/-- Number of `UInt64` invocations a single `Random::UInt32()` call performs
from state `r`, read off the branch structure of `Random.UInt32`: zero on a
cache hit, one on a cache miss. -/
def Random.u64DrawsOfUInt32 (r : Random) : ℕ :=
  if r.m_HasCache then 0 else 1

/-- The generator state after `n` consecutive `Random::UInt32()` calls. -/
def Random.iterUInt32 (r : Random) : ℕ → Random
  | 0 => r
  | n + 1 => (Random.UInt32 (Random.iterUInt32 r n)).2

/-- `Random::PosInt32()`: `int32_t(UInt32() >> 1)`. -/
def Random.PosInt32 (r : Random) : ℤ × Random :=
  let p := Random.UInt32 r
  (toInt32 (p.1 >>> 1), p.2)

/-- The value computed by `Random::IntBetween` from a `PosInt32` draw `p`:
`p % (max - min) + min`, with the C++ truncated `%` (`Int.tmod`; for the
non-negative dividends produced by `PosInt32` this agrees with the
mathematical remainder). -/
def intBetweenValue (p min max : ℤ) : ℤ :=
  Int.tmod p (max - min) + min

/-- `Random::IntBetween(min, max)`: `PosInt32() % (max - min) + min`.
The `int32_t` subtraction `max - min` is modelled as exact: overflow of the
difference is undefined behaviour in the source and outside every use. -/
def Random.IntBetween (r : Random) (min max : ℤ) : ℤ × Random :=
  let p := Random.PosInt32 r
  (intBetweenValue p.1 min max, p.2)

/-- `Random::Element(arr, size)`: `arr[UInt32() % size]`, with `size` the
length of the list (as at every call site of the source). -/
def Random.Element (r : Random) (arr : List String) : String × Random :=
  let p := Random.UInt32 r
  (arr.getD (p.1 % arr.length) "", p.2)

/-- Swap of two positions of a list, used to model the raw array swap in
`Random::ShuffleArray`; every call of the source is in range, and an
out-of-range pair leaves the list unchanged. -/
def listSwap {α : Type} (l : List α) (i j : ℕ) : List α :=
  if h : i < l.length ∧ j < l.length then
    (l.set i (l.get ⟨j, h.2⟩)).set j (l.get ⟨i, h.1⟩)
  else l

/-- `Random::ShuffleArray(arr, size)`: `for (; size > 0; size--)` draw
`swapIndex = UInt32() % size` and swap `arr[size - 1]` with `arr[swapIndex]`.
The third component counts the `UInt32` draws consumed, one per iteration
exactly as in the source loop. -/
def Random.ShuffleArray {α : Type} (r : Random) (l : List α) : ℕ → Random × List α × ℕ
  | 0 => (r, l, 0)
  | k + 1 =>
    let p := Random.UInt32 r
    let swapIndex := p.1 % (k + 1)
    let q := Random.ShuffleArray p.2 (listSwap l k swapIndex) k
    (q.1, q.2.1, q.2.2 + 1)

/-- The token searched by `mainFunction.find(maskToken)` in `GenerateShaderCode`. -/
def maskToken : String := "&MASK&"

/-- `std::string::replace` of the first occurrence of `pat` (as located by
`find`) by `repl`; the buffer is unchanged when `pat` does not occur. -/
def replaceFirst : List Char → List Char → List Char → List Char
  | [], _, _ => []
  | c :: rest, pat, repl =>
    if pat.isPrefixOf (c :: rest) then repl ++ (c :: rest).drop pat.length
    else c :: replaceFirst rest pat repl

/-- The `for (char& c : mainFunction)` sweep of `GenerateShaderCode` turning
every pending slot `'&'` into an active slot `'$'`. -/
def markTokens (l : List Char) : List Char :=
  l.map fun c => if c = '&' then '$' else c

/-- One pass of the inner `while`-loop of `GenerateShaderCode`: repeatedly
find the first `'$'`, decide with `IntBetween(1, maxDepth*maxDepth) > i*i`
between a function pattern and a terminal value, and splice the chosen
catalog text in place of the slot.  The source rescans from the start of the
buffer after each splice; since no catalog entry contains `'$'`
(`catalogs_no_dollar` below), the next `'$'` found is always past the spliced
text, so a single left-to-right sweep is the same computation. -/
def resolvePass (md i : ℕ) : Random → List Char → Random × List Char
  | r, [] => (r, [])
  | r, c :: rest =>
    if c = '$' then
      let d := Random.IntBetween r 1 ((md : ℤ) * (md : ℤ))
      let e :=
        if d.1 > (i : ℤ) * (i : ℤ) then Random.Element d.2 functions
        else Random.Element d.2 values
      let q := resolvePass md i e.2 rest
      (q.1, e.1.data ++ q.2)
    else
      let q := resolvePass md i r rest
      (q.1, c :: q.2)

/-- The outer `for (int i = 0; i <= maxDepth; i++)` loop of
`GenerateShaderCode`: `k` counts the remaining passes, so pass index
`i = md - k` runs from 0 (at `k = md`) up to `md` (at `k = 0`); each pass
first marks all pending slots and then resolves every active slot. -/
def runPasses (md : ℕ) : ℕ → Random → List Char → Random × List Char
  | 0, r, l => (r, l)
  | k + 1, r, l =>
    let q := resolvePass md (md - k) r (markTokens l)
    runPasses md k q.1 q.2

/-- `std::to_string(rand.FloatO()) + 'f'` for the draw `v = UInt32()`:
`FloatO` computes `((v >> 9) + 0.5f) * (1.0f / 8388608.0f)`, which is the
exact rational `(2*(v >> 9) + 1) / 2^24` (every step is exact in IEEE-754
binary32), and `std::to_string` prints it with exactly six decimal digits,
rounded to nearest.  No tie is possible: `(2k+1) * 10^6` is never an odd
multiple of `2^23`, so the rounded value is `⌊((2k+1)*10^6 + 2^23) / 2^24⌋`
regardless of the tie-breaking rule. -/
def renderFloatO (k : ℕ) : String :=
  let d := ((2 * k + 1) * 1000000 + 2 ^ 23) / 2 ^ 24
  if d = 1000000 then "1.000000f"
  else
    String.mk ['0', '.', Nat.digitChar (d / 100000 % 10), Nat.digitChar (d / 10000 % 10),
      Nat.digitChar (d / 1000 % 10), Nat.digitChar (d / 100 % 10),
      Nat.digitChar (d / 10 % 10), Nat.digitChar (d % 10), 'f']

/-- The final `while`-loop of `GenerateShaderCode`: replace every `'#'` by a
freshly drawn constant rendered as text.  As with `resolvePass`, the source
rescans from the buffer start, and the rendered text never contains `'#'`,
so a left-to-right sweep is the same computation. -/
def replaceConsts : Random → List Char → Random × List Char
  | r, [] => (r, [])
  | r, c :: rest =>
    if c = '#' then
      let p := Random.UInt32 r
      let q := replaceConsts p.2 rest
      (q.1, (renderFloatO (p.1 >>> 9)).data ++ q.2)
    else
      let q := replaceConsts r rest
      (q.1, c :: q.2)

/-- `GenerateShaderCode(uint64_t seed)` from Shader.cpp: seed the generator,
draw `maxDepth = IntBetween(3,7) + IntBetween(3,7)`, resolve the mask token,
run passes 0..maxDepth of slot resolution, replace the constant placeholders
and prepend the fixed function definitions.  `maxDepth` is always at least 6,
so `Int.toNat` is exact and the source loop runs `maxDepth + 1` passes. -/
def GenerateShaderCode (seed : ℕ) : String :=
  let r0 := Random.init seed
  let d1 := Random.IntBetween r0 3 7
  let d2 := Random.IntBetween d1.2 3 7
  let maxDepth := d1.1 + d2.1
  let mk := Random.Element d2.2 masks
  let buf0 := replaceFirst mainFunction.data maskToken.data mk.1.data
  let pl := runPasses maxDepth.toNat (maxDepth.toNat + 1) mk.2 buf0
  let cl := replaceConsts pl.1 pl.2
  functionDefinitions ++ String.mk cl.2

/-- The value `maxDepth` of `GenerateShaderCode` as a function of the two
`PosInt32` draw outcomes feeding the two `IntBetween(3, 7)` calls. -/
def maxDepthOfDraws (p1 p2 : ℤ) : ℤ :=
  intBetweenValue p1 3 7 + intBetweenValue p2 3 7

/-- The number of residue pairs of the two `PosInt32` draws modulo 4 that
produce a given `maxDepth`; since `2^31` is a multiple of 4, uniformly
distributed draws induce the uniform distribution on `Fin 4 × Fin 4`, so
these counts are proportional to the probability of each depth. -/
def depthPairCount (d : ℤ) : ℕ :=
  (Finset.univ.filter fun ab : Fin 4 × Fin 4 =>
    maxDepthOfDraws (ab.1 : ℤ) (ab.2 : ℤ) = d).card

namespace Hash

/-- `Hash::Pair(uint64_t, uint64_t)`:
`sum = k0 + k1; return ((sum * sum + sum) >> 1) + k1`, in `uint64_t`
arithmetic (every operation reduces modulo `2^64`). -/
def Pair (k0 k1 : ℕ) : ℕ :=
  let sum := (k0 + k1) % 2 ^ 64
  (((sum * sum + sum) % 2 ^ 64) >>> 1 + k1) % 2 ^ 64

/-- `Hash::UInt64(uint64_t n)`: the Murmur-style 64-bit finalizer with
multiplier `0x9ddfea08eb382d69`, in `uint64_t` arithmetic. -/
def UInt64 (n : ℕ) : ℕ :=
  let n0 := n % 2 ^ 64
  let x1 := n0 * 0x9ddfea08eb382d69 % 2 ^ 64
  let x2 := x1 ^^^ (x1 >>> 47)
  let x3 := x2 ^^^ n0
  let x4 := x3 * 0x9ddfea08eb382d69 % 2 ^ 64
  let x5 := x4 ^^^ (x4 >>> 47)
  x5 * 0x9ddfea08eb382d69 % 2 ^ 64

/-- `Hash::UInt32(uint32_t n)`: the Murmur3 32-bit finalizer, in `uint32_t`
arithmetic. -/
def UInt32 (n : ℕ) : ℕ :=
  let n0 := n % 2 ^ 32
  let x1 := n0 ^^^ (n0 >>> 16)
  let x2 := x1 * 0x85ebca6b % 2 ^ 32
  let x3 := x2 ^^^ (x2 >>> 13)
  let x4 := x3 * 0xc2b2ae35 % 2 ^ 32
  x4 ^^^ (x4 >>> 16)

/-- `Hash::String64(const char* string)`: fold every character of the
null-terminated string into the accumulator through `Pair`, then mix once.
A Lean `String` stands for the characters before the terminator. -/
def String64 (s : String) : ℕ :=
  UInt64 (s.data.foldl (fun x c => Pair x c.toNat) 0)

end Hash

/-- The 64-bit mixer exactly as the specification words it: `x = n;
x *= 0x9DDFEA08EB382D69; x ^= x >> 47; x ^= n; x *= 0x9DDFEA08EB382D69;
x ^= x >> 47; x *= 0x9DDFEA08EB382D69; return x`, all arithmetic modulo
`2^64`; written independently of `Hash.UInt64` to compare against it. -/
def specMix64 (n : ℕ) : ℕ :=
  let n0 := n % 2 ^ 64
  let a := n0 * 0x9DDFEA08EB382D69 % 2 ^ 64
  let b := a ^^^ (a >>> 47)
  let c := b ^^^ n0
  let d := c * 0x9DDFEA08EB382D69 % 2 ^ 64
  let e := d ^^^ (d >>> 47)
  e * 0x9DDFEA08EB382D69 % 2 ^ 64

/-- The 32-bit mixer exactly as the specification words it: `n ^= n >> 16;
n *= 0x85EBCA6B; n ^= n >> 13; n *= 0xC2B2AE35; n ^= n >> 16; return n`,
all arithmetic modulo `2^32`; written independently of `Hash.UInt32`. -/
def specMix32 (n : ℕ) : ℕ :=
  let n0 := n % 2 ^ 32
  let a := n0 ^^^ (n0 >>> 16)
  let b := a * 0x85EBCA6B % 2 ^ 32
  let c := b ^^^ (b >>> 13)
  let d := c * 0xC2B2AE35 % 2 ^ 32
  d ^^^ (d >>> 16)

/-- The pairing formula exactly as the specification words it:
`Pair(a,b) = let s = a + b in (s*s + s)/2 + b`, all arithmetic modulo `2^64`
with the halving as a division by two; written independently of
`Hash.Pair`. -/
def specPair (a b : ℕ) : ℕ :=
  let s := (a + b) % 2 ^ 64
  (((s * s + s) % 2 ^ 64) / 2 + b) % 2 ^ 64

/-- An exact (unnormalized) fraction `num / den` with positive denominator:
the value space used to model IEEE-754 binary32 computations exactly.  Every
float value and every intermediate of the modelled computations is a dyadic
rational, so exact fraction arithmetic represents them faithfully. -/
structure Frac where
  num : ℤ
  den : ℤ

/-- The fraction `a - b`. -/
def Frac.sub (a b : Frac) : Frac :=
  ⟨a.num * b.den - b.num * a.den, a.den * b.den⟩

/-- The fraction `a * b`. -/
def Frac.mul (a b : Frac) : Frac :=
  ⟨a.num * b.num, a.den * b.den⟩

/-- The fraction `a / b` (for positive `b`). -/
def Frac.div (a b : Frac) : Frac :=
  ⟨a.num * b.den, a.den * b.num⟩

/-- `a ≤ b` by cross multiplication (for positive denominators). -/
def Frac.le (a b : Frac) : Bool :=
  a.num * b.den ≤ b.num * a.den

/-- Value equality by cross multiplication (for positive denominators). -/
def Frac.eq (a b : Frac) : Bool :=
  a.num * b.den = b.num * a.den

/-- `2^e` as a fraction, for an integer exponent. -/
def pow2 (e : ℤ) : Frac :=
  if 0 ≤ e then ⟨2 ^ e.toNat, 1⟩ else ⟨1, 2 ^ (-e).toNat⟩

/-- The binary exponent of a positive value in the IEEE-754 binary32 normal
range: the unique `e` in `[-126, 127]` with `2^e ≤ q < 2^(e+1)` (found by
scanning down from 127). -/
def findExp (q : Frac) : ℤ :=
  ((((List.range 254).map fun j => (127 : ℤ) - j).find? fun e =>
    (pow2 e).le q).getD (-126))

/-- Round a positive fraction to the nearest integer, ties to even — the
IEEE-754 default rounding of the significand. -/
def roundHalfEven (q : Frac) : ℤ :=
  let n := q.num / q.den
  let r := q.num - n * q.den
  if 2 * r < q.den then n
  else if q.den < 2 * r then n + 1
  else if n % 2 = 0 then n else n + 1

/-- Rounding of a positive fraction to the nearest IEEE-754 binary32 value:
scale into `[2^23, 2^24]`, round the significand to nearest-even, scale
back.  Faithful on the positive normal range, which covers every nonzero
value the modelled computations produce. -/
def roundF32Pos (q : Frac) : Frac :=
  let e := findExp q
  Frac.mul ⟨roundHalfEven (q.div (pow2 (e - 23))), 1⟩ (pow2 (e - 23))

/-- Rounding of a fraction to the nearest IEEE-754 binary32 value (sign plus
positive case; exact at zero). -/
def roundF32 (q : Frac) : Frac :=
  if q.num = 0 then ⟨0, 1⟩
  else if 0 < q.num then roundF32Pos q
  else ⟨-(roundF32Pos ⟨-q.num, q.den⟩).num, (roundF32Pos ⟨-q.num, q.den⟩).den⟩

/-- The IEEE-754 binary32 bit pattern of a non-negative representable value
(normal or zero): biased exponent in bits 23..30, significand fraction in
bits 0..22.  This is the object `std::memcpy` reads in `FloatNormal`. -/
def encodeF32 (q : Frac) : ℕ :=
  if q.num ≤ 0 then 0
  else
    let e := findExp q
    let m := roundHalfEven (q.div (pow2 (e - 23)))
    if m = 2 ^ 24 then (e + 1 + 127).toNat <<< 23
    else ((e + 127).toNat <<< 23) + (m - 2 ^ 23).toNat

/-- The value of the literal `5.0003944e-8f` of `Random::FloatNormal`: the
decimal `50003944 / 10^15` rounded to binary32. -/
def floatNormalC : Frac :=
  roundF32 ⟨50003944, 1000000000000000⟩

/-- The body of `Random::FloatNormal()` as a function of the drawn open-unit
float `u1`: `u2 = 1.0f - u1` (one binary32 subtraction), reinterpret both
bit patterns as `int32_t` via `memcpy`, and return
`5.0003944e-8f * (r1 - r2)` (an exact integer subtraction — no `int`
overflow occurs in the modelled uses — converted to binary32, then one
binary32 multiplication). -/
def Random.FloatNormalOfU1 (u1 : Frac) : Frac :=
  let u2 := roundF32 (Frac.sub ⟨1, 1⟩ u1)
  let r1 := toInt32 (encodeF32 u1)
  let r2 := toInt32 (encodeF32 u2)
  roundF32 (Frac.mul floatNormalC (roundF32 ⟨r1 - r2, 1⟩))

/-! ### Range facts about the 32-bit layer -/

theorem toInt32_of_lt {n : ℕ} (h : n < 2 ^ 31) : toInt32 n = (n : ℤ) := by
  have h32 : n % 2 ^ 32 = n := Nat.mod_eq_of_lt (lt_trans h (by norm_num))
  simp only [toInt32, h32, if_pos h]

theorem uint32_val_lt (r : Random) (hc : r.m_Cache < 2 ^ 32) :
    (Random.UInt32 r).1 < 2 ^ 32 := by
  by_cases h : r.m_HasCache <;> simp [Random.UInt32, h, Nat.mod_lt]
  omega

theorem uint32_cache_lt (r : Random) (hc : r.m_Cache < 2 ^ 32) :
    (Random.UInt32 r).2.m_Cache < 2 ^ 32 := by
  by_cases h : r.m_HasCache <;> simp [Random.UInt32, h, Nat.mod_lt]
  omega

theorem posInt32_bounds (r : Random) (hc : r.m_Cache < 2 ^ 32) :
    0 ≤ (Random.PosInt32 r).1 ∧ (Random.PosInt32 r).1 < 2 ^ 31 := by
  have hv := uint32_val_lt r hc
  have hs : (Random.UInt32 r).1 >>> 1 < 2 ^ 31 := by
    rw [Nat.shiftRight_eq_div_pow]
    omega
  have hval : (Random.PosInt32 r).1 = (((Random.UInt32 r).1 >>> 1 : ℕ) : ℤ) := by
    rw [Random.PosInt32]
    exact toInt32_of_lt hs
  rw [hval]
  exact ⟨Int.ofNat_nonneg _, by exact_mod_cast hs⟩

theorem posInt32_cache_lt (r : Random) (hc : r.m_Cache < 2 ^ 32) :
    (Random.PosInt32 r).2.m_Cache < 2 ^ 32 := by
  rw [Random.PosInt32]; exact uint32_cache_lt r hc

theorem intBetweenValue_mem {p min max : ℤ} (hp : 0 ≤ p) (h : min < max) :
    min ≤ intBetweenValue p min max ∧ intBetweenValue p min max < max := by
  have h0 : (0 : ℤ) < max - min := by omega
  have h1 : 0 ≤ Int.tmod p (max - min) := Int.tmod_nonneg _ hp
  have h2 : Int.tmod p (max - min) < max - min := Int.tmod_lt_of_pos p h0
  rw [intBetweenValue]
  omega

/-- Whatever the draw, `IntBetween(1, md*md)` is strictly below `md * md`
once `2 ≤ md`: the divisor `md*md - 1` is positive, and a truncated
remainder is always strictly below a positive divisor. -/
theorem intBetween_lt_sq (r : Random) (md : ℕ) (hmd : 2 ≤ md) :
    (Random.IntBetween r 1 ((md : ℤ) * (md : ℤ))).1 < (md : ℤ) * (md : ℤ) := by
  have hmd' : (2 : ℤ) ≤ (md : ℤ) := by exact_mod_cast hmd
  have hd : (0 : ℤ) < (md : ℤ) * (md : ℤ) - 1 := by nlinarith
  have h2 := Int.tmod_lt_of_pos (Random.PosInt32 r).1 hd
  simp only [Random.IntBetween, intBetweenValue]
  omega

theorem element_getD (l : List String) (i : ℕ) : l.getD i "" ∈ l ∨ l.getD i "" = "" := by
  induction l generalizing i with
  | nil => right; rfl
  | cons a t ih =>
    cases i with
    | zero => left; simp [List.getD]
    | succ n =>
      rw [List.getD_cons_succ]
      rcases ih n with h | h
      · left; exact List.mem_cons_of_mem _ h
      · right; exact h

theorem element_prop {P : String → Prop} (r : Random) (arr : List String)
    (h : ∀ v ∈ arr, P v) (h0 : P "") : P (Random.Element r arr).1 := by
  rw [Random.Element]
  rcases element_getD arr ((Random.UInt32 r).1 % arr.length) with hm | hm
  · exact h _ hm
  · rw [hm]; exact h0

/-! ### Catalog contents -/

theorem values_chars : ∀ v ∈ values, ∀ c ∈ v.data, c ≠ '&' ∧ c ≠ '$' := by decide

/-- No catalog entry contains an active-slot token `'$'`; this is what makes
the single left-to-right sweep of `resolvePass` compute the same buffer as
the source's rescan-from-the-start loop. -/
theorem catalogs_no_dollar :
    (∀ v ∈ values, ∀ c ∈ v.data, c ≠ '$') ∧ (∀ f ∈ functions, ∀ c ∈ f.data, c ≠ '$') ∧
      ∀ m ∈ masks, ∀ c ∈ m.data, c ≠ '$' := by decide

/-- Tail-recursive checker that a buffer holds no slot or placeholder token,
used to evaluate the fixed preamble literal without deep instance recursion. -/
def noTokensB : List Char → Bool
  | [] => true
  | c :: t => if c = '&' ∨ c = '$' ∨ c = '#' then false else noTokensB t

theorem noTokensB_spec (l : List Char) (h : noTokensB l = true) :
    ∀ c ∈ l, c ≠ '&' ∧ c ≠ '$' ∧ c ≠ '#' := by
  induction l with
  | nil => intro c hc; simp at hc
  | cons a t ih =>
    intro c hc
    rw [noTokensB] at h
    by_cases ha : a = '&' ∨ a = '$' ∨ a = '#'
    · rw [if_pos ha] at h; exact absurd h (by simp)
    · rw [if_neg ha] at h
      rcases List.mem_cons.mp hc with rfl | hc
      · push_neg at ha; exact ⟨ha.1, ha.2.1, ha.2.2⟩
      · exact ih h c hc

theorem functionDefinitions_chars :
    ∀ c ∈ functionDefinitions.data, c ≠ '&' ∧ c ≠ '$' ∧ c ≠ '#' :=
  noTokensB_spec _ (by decide)

/-! ### The pass loop leaves no slot tokens -/

theorem markTokens_no_amp (l : List Char) : '&' ∉ markTokens l := by
  rw [markTokens]
  intro hmem
  rcases List.mem_map.mp hmem with ⟨c, _, hc⟩
  by_cases h : c = '&' <;> simp [h] at hc

theorem resolvePass_final (md : ℕ) (hmd : 2 ≤ md) :
    ∀ (l : List Char) (r : Random), '&' ∉ l →
      ∀ c ∈ (resolvePass md md r l).2, c ≠ '&' ∧ c ≠ '$' := by
  intro l
  induction l with
  | nil => intro r _ c hc; simp [resolvePass] at hc
  | cons a t ih =>
    intro r hamp c hc
    have hat : '&' ∉ t := fun h => hamp (List.mem_cons_of_mem _ h)
    by_cases ha : a = '$'
    · have hcond := intBetween_lt_sq r md hmd
      simp only [resolvePass, if_pos ha] at hc
      rw [if_neg (by omega)] at hc
      rcases List.mem_append.mp hc with hL | hR
      · refine @element_prop (fun v => ∀ c ∈ v.data, c ≠ '&' ∧ c ≠ '$')
          (Random.IntBetween r 1 ((md : ℤ) * (md : ℤ))).2 values values_chars ?_ c hL
        intro c hc'
        simp at hc'
      · exact ih _ hat c hR
    · simp only [resolvePass, if_neg ha, List.mem_cons] at hc
      rcases hc with hc | hc
      · subst hc
        refine ⟨fun h => hamp ?_, ha⟩
        rw [h]; exact List.mem_cons_self _ _
      · exact ih _ hat c hc

theorem runPasses_chars (md : ℕ) (hmd : 2 ≤ md) :
    ∀ (k : ℕ), 1 ≤ k → ∀ (r : Random) (l : List Char),
      ∀ c ∈ (runPasses md k r l).2, c ≠ '&' ∧ c ≠ '$' := by
  intro k
  induction k with
  | zero => omega
  | succ n ih =>
    intro _ r l c hc
    by_cases hn : n = 0
    · subst hn
      simp only [runPasses, Nat.sub_zero] at hc
      exact resolvePass_final md hmd _ _ (markTokens_no_amp l) c hc
    · simp only [runPasses] at hc
      exact ih (by omega) _ _ c hc

/-! ### Constant replacement leaves no tokens -/

theorem digitChar_ok (n : ℕ) :
    Nat.digitChar (n % 10) ≠ '&' ∧ Nat.digitChar (n % 10) ≠ '$' ∧
      Nat.digitChar (n % 10) ≠ '#' := by
  have h : n % 10 < 10 := Nat.mod_lt _ (by norm_num)
  set m := n % 10 with hm
  interval_cases m <;> decide

theorem renderFloatO_chars (k : ℕ) :
    ∀ c ∈ (renderFloatO k).data, c ≠ '&' ∧ c ≠ '$' ∧ c ≠ '#' := by
  rw [renderFloatO]
  by_cases h : ((2 * k + 1) * 1000000 + 2 ^ 23) / 2 ^ 24 = 1000000
  · rw [if_pos h]; decide
  · rw [if_neg h]
    intro c hc
    simp only [List.mem_cons, List.not_mem_nil, or_false] at hc
    rcases hc with h1 | h1 | h1 | h1 | h1 | h1 | h1 | h1 | h1 <;> subst h1
    · decide
    · decide
    · exact digitChar_ok _
    · exact digitChar_ok _
    · exact digitChar_ok _
    · exact digitChar_ok _
    · exact digitChar_ok _
    · exact digitChar_ok _
    · decide

theorem replaceConsts_chars :
    ∀ (l : List Char) (r : Random), (∀ c ∈ l, c ≠ '&' ∧ c ≠ '$') →
      ∀ c ∈ (replaceConsts r l).2, c ≠ '&' ∧ c ≠ '$' ∧ c ≠ '#' := by
  intro l
  induction l with
  | nil => intro r _ c hc; simp [replaceConsts] at hc
  | cons a t ih =>
    intro r hl c hc
    have hlt : ∀ c ∈ t, c ≠ '&' ∧ c ≠ '$' := fun c h => hl c (List.mem_cons_of_mem _ h)
    by_cases ha : a = '#'
    · simp only [replaceConsts, if_pos ha] at hc
      rcases List.mem_append.mp hc with hL | hR
      · exact renderFloatO_chars _ c hL
      · exact ih _ hlt c hR
    · simp only [replaceConsts, if_neg ha, List.mem_cons] at hc
      rcases hc with hc | hc
      · subst hc
        exact ⟨(hl c (List.mem_cons_self _ _)).1, (hl c (List.mem_cons_self _ _)).2, ha⟩
      · exact ih _ hlt c hc

/-! ### IntBetween range and state propagation -/

theorem intBetween_cache_lt (r : Random) (min max : ℤ) (hc : r.m_Cache < 2 ^ 32) :
    (Random.IntBetween r min max).2.m_Cache < 2 ^ 32 := by
  rw [Random.IntBetween]
  exact posInt32_cache_lt r hc

theorem intBetween_mem (r : Random) (min max : ℤ) (hc : r.m_Cache < 2 ^ 32)
    (h : min < max) :
    min ≤ (Random.IntBetween r min max).1 ∧ (Random.IntBetween r min max).1 < max := by
  obtain ⟨h0, _⟩ := posInt32_bounds r hc
  rw [Random.IntBetween]
  exact intBetweenValue_mem h0 h

/-! ### Fisher-Yates swap and permutation -/

theorem get_set_same {α : Type} (l : List α) (i : ℕ) (b : α)
    (h : i < (l.set i b).length) : (l.set i b).get ⟨i, h⟩ = b := by
  simp [List.get_eq_getElem, List.getElem_set]

theorem get_set_other {α : Type} (l : List α) (i j : ℕ) (b : α) (hij : i ≠ j)
    (h : j < (l.set i b).length) (hj : j < l.length) :
    (l.set i b).get ⟨j, h⟩ = l.get ⟨j, hj⟩ := by
  simp [List.get_eq_getElem, List.getElem_set, hij]

theorem count_set_add {α : Type} [DecidableEq α] (a b : α) :
    ∀ (l : List α) (i : ℕ) (h : i < l.length),
      (l.set i b).count a + (if l.get ⟨i, h⟩ = a then 1 else 0)
        = l.count a + (if b = a then 1 else 0) := by
  intro l
  induction l with
  | nil => intro i h; simp at h
  | cons x t ih =>
    intro i h
    cases i with
    | zero =>
      simp only [List.set_cons_zero, List.count_cons, List.get, beq_iff_eq]
      split_ifs <;> omega
    | succ n =>
      have h' : n < t.length := by simpa using h
      have hstep := ih n h'
      simp only [List.set_cons_succ, List.count_cons, List.get, beq_iff_eq]
      split_ifs at hstep ⊢ <;> omega

theorem listSwap_perm {α : Type} (l : List α) (i j : ℕ) : (listSwap l i j).Perm l := by
  classical
  rw [listSwap]
  split
  case isTrue hb =>
    obtain ⟨hi, hj⟩ := hb
    rw [List.perm_iff_count]
    intro a
    have h1 := count_set_add a (l.get ⟨j, hj⟩) l i hi
    have hlen : j < (l.set i (l.get ⟨j, hj⟩)).length := by
      rw [List.length_set]; exact hj
    have h2 := count_set_add a (l.get ⟨i, hi⟩) (l.set i (l.get ⟨j, hj⟩)) j hlen
    by_cases hij : i = j
    · subst hij
      rw [get_set_same] at h2
      split_ifs at h1 h2 ⊢ <;> omega
    · rw [get_set_other l i j _ hij hlen hj] at h2
      split_ifs at h1 h2 ⊢ <;> omega
  case isFalse hb => exact List.Perm.refl l

theorem listSwap_length {α : Type} (l : List α) (i j : ℕ) :
    (listSwap l i j).length = l.length := by
  rw [listSwap]
  split <;> simp [List.length_set]

theorem shuffleArray_spec {α : Type} :
    ∀ (k : ℕ) (r : Random) (l : List α), k ≤ l.length →
      (Random.ShuffleArray r l k).2.1.Perm l ∧ (Random.ShuffleArray r l k).2.2 = k := by
  intro k
  induction k with
  | zero => intro r l _; exact ⟨List.Perm.refl l, rfl⟩
  | succ n ih =>
    intro r l hk
    have hlen := listSwap_length l n ((Random.UInt32 r).1 % (n + 1))
    have hn : n ≤ (listSwap l n ((Random.UInt32 r).1 % (n + 1))).length := by omega
    obtain ⟨hperm, hcount⟩ := ih (Random.UInt32 r).2 _ hn
    simp only [Random.ShuffleArray]
    exact ⟨hperm.trans (listSwap_perm l n _), by rw [hcount]⟩

/-! ### Cache parity of the 32-bit packing -/

theorem uint32_flip (r : Random) : (Random.UInt32 r).2.m_HasCache = !r.m_HasCache := by
  by_cases h : r.m_HasCache <;> simp [Random.UInt32, h]

theorem iter_parity (seed : ℕ) :
    ∀ k, (Random.iterUInt32 (Random.init seed) k).m_HasCache = decide (k % 2 = 1) := by
  intro k
  induction k with
  | zero => rfl
  | succ n ih =>
    simp only [Random.iterUInt32]
    rw [uint32_flip, ih]
    by_cases h : n % 2 = 1
    · have h1 : (n + 1) % 2 = 0 := by omega
      simp [h, h1]
    · have h0 : n % 2 = 0 := by omega
      have h1 : (n + 1) % 2 = 1 := by omega
      simp [h0, h1]

/-! ## The claims -/

theorem data_append_mk (s : String) (L : List Char) :
    (s ++ String.mk L).data = s.data ++ L := rfl

/-- C1: the generated program is a pure function of the seed: the only state
`GenerateShaderCode` reads is the `Random` instance built from the seed and
the fixed catalogs, so two calls with the same seed produce byte-identical
text. -/
theorem generateShaderCode_deterministic (seed : ℕ) :
    GenerateShaderCode seed = GenerateShaderCode seed := rfl

theorem maxDepthOfDraws_bounds {p1 p2 : ℤ} (h1 : 0 ≤ p1) (h2 : 0 ≤ p2) :
    6 ≤ maxDepthOfDraws p1 p2 ∧ maxDepthOfDraws p1 p2 ≤ 12 := by
  simp only [maxDepthOfDraws, intBetweenValue]
  have b1 : (0 : ℤ) ≤ Int.tmod p1 (7 - 3) := Int.tmod_nonneg _ h1
  have b2 : Int.tmod p1 (7 - 3) < 7 - 3 := Int.tmod_lt_of_pos p1 (by norm_num)
  have b3 : (0 : ℤ) ≤ Int.tmod p2 (7 - 3) := Int.tmod_nonneg _ h2
  have b4 : Int.tmod p2 (7 - 3) < 7 - 3 := Int.tmod_lt_of_pos p2 (by norm_num)
  omega

/-- C2 counterexample: 14 lies inside the claimed interval [6, 14], yet no
pair of `PosInt32` draw outcomes makes `maxDepth` equal to 14 — the code's
`IntBetween(3, 7)` is half-open, so each summand is at most 6. -/
theorem maxDepth_fourteen_unattainable :
    ¬ ∃ p1 p2 : ℤ, 0 ≤ p1 ∧ p1 < 2 ^ 31 ∧ 0 ≤ p2 ∧ p2 < 2 ^ 31 ∧
      maxDepthOfDraws p1 p2 = 14 := by
  rintro ⟨p1, p2, h1, _, h2, _, h14⟩
  have := maxDepthOfDraws_bounds h1 h2
  omega

/-- C2 (amended): `maxDepth = IntBetween(3,7) + IntBetween(3,7)` ranges over
the integers [6, 12] — every value in that interval attainable for some draw
outcomes, none outside it — with the distribution peaked at 9. -/
theorem maxDepth_range_and_mode :
    (∀ p1 p2 : ℤ, 0 ≤ p1 → 0 ≤ p2 →
      6 ≤ maxDepthOfDraws p1 p2 ∧ maxDepthOfDraws p1 p2 ≤ 12)
  ∧ (∀ d : ℤ, 6 ≤ d → d ≤ 12 →
      ∃ p1 p2 : ℤ, 0 ≤ p1 ∧ p1 < 2 ^ 31 ∧ 0 ≤ p2 ∧ p2 < 2 ^ 31 ∧
        maxDepthOfDraws p1 p2 = d)
  ∧ ∀ d : ℤ, d ≠ 9 → depthPairCount d < depthPairCount 9 := by
  refine ⟨fun p1 p2 h1 h2 => maxDepthOfDraws_bounds h1 h2, ?_, ?_⟩
  · intro d h6 h12
    interval_cases d
    · exact ⟨0, 0, by decide, by decide, by decide, by decide, by decide⟩
    · exact ⟨0, 1, by decide, by decide, by decide, by decide, by decide⟩
    · exact ⟨0, 2, by decide, by decide, by decide, by decide, by decide⟩
    · exact ⟨0, 3, by decide, by decide, by decide, by decide, by decide⟩
    · exact ⟨1, 3, by decide, by decide, by decide, by decide, by decide⟩
    · exact ⟨2, 3, by decide, by decide, by decide, by decide, by decide⟩
    · exact ⟨3, 3, by decide, by decide, by decide, by decide, by decide⟩
  · intro d hd
    by_cases hin : 6 ≤ d ∧ d ≤ 12
    · have key : ∀ d ∈ Finset.Icc (6 : ℤ) 12, d ≠ 9 →
          depthPairCount d < depthPairCount 9 := by decide
      exact key d (Finset.mem_Icc.mpr hin) hd
    · have h0 : depthPairCount d = 0 := by
        rw [depthPairCount, Finset.card_eq_zero, Finset.filter_eq_empty_iff]
        intro ab _
        have hb := @maxDepthOfDraws_bounds (ab.1 : ℤ) (ab.2 : ℤ)
          (by positivity) (by positivity)
        omega
      have h9 : depthPairCount 9 = 4 := by decide
      omega

/-- C2 witness: the amended statement applied at concrete draw outcomes and
depths. -/
theorem maxDepth_range_and_mode_witness :
    (6 ≤ maxDepthOfDraws 0 1 ∧ maxDepthOfDraws 0 1 ≤ 12)
  ∧ (∃ p1 p2 : ℤ, 0 ≤ p1 ∧ p1 < 2 ^ 31 ∧ 0 ≤ p2 ∧ p2 < 2 ^ 31 ∧
      maxDepthOfDraws p1 p2 = 12)
  ∧ depthPairCount 7 < depthPairCount 9 :=
  ⟨maxDepth_range_and_mode.1 0 1 (by decide) (by decide),
   maxDepth_range_and_mode.2.1 12 (by decide) (by decide),
   maxDepth_range_and_mode.2.2 7 (by decide)⟩

/-- C3: at the final pass `i = maxDepth` the draw `IntBetween(1, maxDepth²)`
can never exceed `i² = maxDepth²`, so the choice rule always selects a
terminal there, and the text returned by `GenerateShaderCode` contains no
unresolved slot token (`'&'` or `'$'`) and no constant placeholder
(`'#'`). -/
theorem generate_leaves_no_tokens (seed : ℕ) (r : Random) (md : ℕ) (hmd : 6 ≤ md) :
    ¬ ((Random.IntBetween r 1 ((md : ℤ) * (md : ℤ))).1 > (md : ℤ) * (md : ℤ))
  ∧ ∀ c ∈ (GenerateShaderCode seed).data, c ≠ '&' ∧ c ≠ '$' ∧ c ≠ '#' := by
  constructor
  · have := intBetween_lt_sq r md (by omega)
    omega
  · intro c hc
    simp only [GenerateShaderCode] at hc
    rw [data_append_mk] at hc
    rcases List.mem_append.mp hc with hL | hR
    · exact functionDefinitions_chars c hL
    · refine replaceConsts_chars _ _ ?_ c hR
      refine runPasses_chars _ ?_ _ (by omega) _ _
      have hc0 : (Random.init seed).m_Cache < 2 ^ 32 := by
        simp [Random.init]
      have h1 := intBetween_mem (Random.init seed) 3 7 hc0 (by norm_num)
      have hcc := intBetween_cache_lt (Random.init seed) 3 7 hc0
      have h2 := intBetween_mem (Random.IntBetween (Random.init seed) 3 7).2 3 7 hcc
        (by norm_num)
      omega

/-- C3 witness: the statement at seed 0, depth 6 and a concrete state. -/
theorem generate_leaves_no_tokens_witness :
    ¬ ((Random.IntBetween (⟨[], 0, 0, false⟩ : Random) 1
        (((6 : ℕ) : ℤ) * ((6 : ℕ) : ℤ))).1 > ((6 : ℕ) : ℤ) * ((6 : ℕ) : ℤ))
  ∧ ∀ c ∈ (GenerateShaderCode 0).data, c ≠ '&' ∧ c ≠ '$' ∧ c ≠ '#' :=
  generate_leaves_no_tokens 0 ⟨[], 0, 0, false⟩ 6 (by norm_num)

/-- C4: `UInt32` does 2-for-1 packing.  From a fresh `Random` the cache-full
flag after `k` calls is exactly the parity of `k`, any two consecutive calls
perform exactly one `UInt64` invocation between them, a call on an empty
cache performs one `UInt64` draw, returns its low half and caches its high
half, and a call on a full cache performs no `UInt64` draw and returns the
cached half. -/
theorem uint32_two_for_one (seed k : ℕ) (r : Random) :
    ((Random.iterUInt32 (Random.init seed) k).m_HasCache = decide (k % 2 = 1))
  ∧ (Random.u64DrawsOfUInt32 (Random.iterUInt32 (Random.init seed) k)
      + Random.u64DrawsOfUInt32 (Random.iterUInt32 (Random.init seed) (k + 1)) = 1)
  ∧ (r.m_HasCache = false →
      Random.UInt32 r = ((Random.UInt64 r).1 % 2 ^ 32,
        { (Random.UInt64 r).2 with
            m_Cache := ((Random.UInt64 r).1 >>> 32) % 2 ^ 32, m_HasCache := true }))
  ∧ (r.m_HasCache = true →
      Random.UInt32 r = (r.m_Cache, { r with m_HasCache := false })) := by
  refine ⟨iter_parity seed k, ?_, ?_, ?_⟩
  · rw [Random.u64DrawsOfUInt32, Random.u64DrawsOfUInt32, iter_parity, iter_parity]
    by_cases h : k % 2 = 1
    · have h1 : ¬ (k + 1) % 2 = 1 := by omega
      simp [h, h1]
    · have h1 : (k + 1) % 2 = 1 := by omega
      simp [h, h1]
  · intro h
    simp [Random.UInt32, h]
  · intro h
    simp [Random.UInt32, h]

/-- C4 witness: both branch descriptions applied at concrete states. -/
theorem uint32_two_for_one_witness :
    (Random.UInt32 (⟨[], 0, 0, false⟩ : Random)
      = ((Random.UInt64 (⟨[], 0, 0, false⟩ : Random)).1 % 2 ^ 32,
        { (Random.UInt64 (⟨[], 0, 0, false⟩ : Random)).2 with
            m_Cache := ((Random.UInt64 (⟨[], 0, 0, false⟩ : Random)).1 >>> 32) % 2 ^ 32,
            m_HasCache := true }))
  ∧ (Random.UInt32 (⟨[], 5, 9, true⟩ : Random)
      = (9, { (⟨[], 5, 9, true⟩ : Random) with m_HasCache := false })) :=
  ⟨(uint32_two_for_one 0 0 ⟨[], 0, 0, false⟩).2.2.1 rfl,
   (uint32_two_for_one 0 0 ⟨[], 5, 9, true⟩).2.2.2 rfl⟩

/-- C5: the pairing function computes `((s*s + s)/2) + b` for `s = a + b`
modulo `2^64` with the halving as a right shift; in particular
`Pair(0,5) = 20` and `Pair(5,0) = 15`, so the function is asymmetric. -/
theorem pair_formula_and_asymmetry :
    (∀ a b : ℕ, Hash.Pair a b = specPair a b)
  ∧ Hash.Pair 0 5 = 20 ∧ Hash.Pair 5 0 = 15 ∧ Hash.Pair 0 5 ≠ Hash.Pair 5 0 := by
  refine ⟨fun a b => ?_, by decide, by decide, by decide⟩
  simp only [Hash.Pair, specPair, Nat.shiftRight_eq_div_pow, pow_one]

/-- C6: both scalar mixers agree with the reference formulas of the
specification; two concrete evaluations anchor the check. -/
theorem mixers_match_reference :
    (∀ n : ℕ, Hash.UInt64 n = specMix64 n) ∧ (∀ n : ℕ, Hash.UInt32 n = specMix32 n)
  ∧ Hash.UInt64 12345 = 5108955590772430415 ∧ Hash.UInt32 7 = 415870660 :=
  ⟨fun _ => rfl, fun _ => rfl, by decide, by decide⟩

/-- C7 counterexample: on a one-element array the source loop still runs its
`size = 1` iteration and consumes one 32-bit draw, not `n - 1 = 0` draws. -/
theorem shuffle_draw_count_counterexample :
    (Random.ShuffleArray (⟨[], 0, 5, true⟩ : Random) [(0 : ℕ)] 1).2.2 = 1
  ∧ (Random.ShuffleArray (⟨[], 0, 5, true⟩ : Random) [(0 : ℕ)] 1).2.2
      ≠ [(0 : ℕ)].length - 1 := by
  exact ⟨by decide, by decide⟩

/-- C7 (amended): `ShuffleArray` iterates `size` from `n` down to 1 (touching
indices `n-1` down to 0; the last iteration swaps index 0 with itself), at
each step drawing one 32-bit value and swapping the element at `size - 1`
with the one at index `draw mod size` — consuming exactly `n` `UInt32` draws
— and the resulting array is a permutation of the input. -/
theorem shuffle_perm_and_draw_count {α : Type} (r : Random) (l : List α) :
    (Random.ShuffleArray r l l.length).2.1.Perm l
  ∧ (Random.ShuffleArray r l l.length).2.2 = l.length :=
  shuffleArray_spec l.length r l (le_refl _)

/-- C8: the `FloatNormal` formula at the midpoint input `u1 = 0.5`: the
complement `1 - u1` computes to the same binary32 value (bit pattern
`0x3F000000`), the two bit patterns coincide, their integer difference is 0
and the result is exactly 0. -/
theorem floatNormal_midpoint_zero :
    encodeF32 (roundF32 (Frac.sub ⟨1, 1⟩ ⟨1, 2⟩)) = encodeF32 ⟨1, 2⟩
  ∧ encodeF32 (⟨1, 2⟩ : Frac) = 0x3F000000
  ∧ toInt32 (encodeF32 ⟨1, 2⟩) - toInt32 (encodeF32 (roundF32 (Frac.sub ⟨1, 1⟩ ⟨1, 2⟩))) = 0
  ∧ (Random.FloatNormalOfU1 ⟨1, 2⟩).num = 0 :=
  ⟨by decide, by decide, by decide, by decide⟩

/-- C9: zero is a fixed point of both scalar mixers, and the empty string's
character fold leaves the accumulator at 0, so `String64("")` is 0 too. -/
theorem hash_zero_fixed_point :
    Hash.UInt64 0 = 0 ∧ Hash.UInt32 0 = 0 ∧ Hash.String64 "" = 0 :=
  ⟨by decide, by decide, by decide⟩

/-- C10: under the precondition `min < max` (with a representable positive
difference), `PosInt32` is non-negative and below `2^31`, the divisor
`max - min` is nonzero — the modulo-by-zero case is unreachable — and
`IntBetween` lands in the half-closed interval `[min, max)`. -/
theorem intBetween_range_safe (r : Random) (min max : ℤ) (hc : r.m_Cache < 2 ^ 32)
    (hlt : min < max) (hrep : max - min < 2 ^ 31) :
    (0 ≤ (Random.PosInt32 r).1 ∧ (Random.PosInt32 r).1 < 2 ^ 31)
  ∧ max - min ≠ 0
  ∧ min ≤ (Random.IntBetween r min max).1 ∧ (Random.IntBetween r min max).1 < max :=
  ⟨posInt32_bounds r hc, by omega, intBetween_mem r min max hc hlt⟩

/-- C10 witness: the statement at a concrete state and the bounds (3, 7). -/
theorem intBetween_range_safe_witness :
    (0 ≤ (Random.PosInt32 (⟨[], 0, 9, true⟩ : Random)).1
      ∧ (Random.PosInt32 (⟨[], 0, 9, true⟩ : Random)).1 < 2 ^ 31)
  ∧ (7 : ℤ) - 3 ≠ 0
  ∧ 3 ≤ (Random.IntBetween (⟨[], 0, 9, true⟩ : Random) 3 7).1
      ∧ (Random.IntBetween (⟨[], 0, 9, true⟩ : Random) 3 7).1 < 7 :=
  intBetween_range_safe ⟨[], 0, 9, true⟩ 3 7 (by norm_num) (by norm_num) (by norm_num)

end PPW
